import Mathlib

/-!
# Verification of the GmailWrapper library against its specification

Shallow embedding of `src/gmailwrapper` (auth.py, client.py, config.py,
exceptions.py, resources/base.py, resources/messages.py, resources/drafts.py,
resources/threads.py).  Strings are modelled as `List Char`; bytes as `Nat`
values below 256; the `email` / `base64` standard-library calls used by
`create_message` / `parse_message` are embedded at the level of the documented
line-oriented behaviour of CPython's generator and feed parser.
-/

namespace GmailWrapper

/-- A text line / byte-free string, modelled as a list of characters. -/
abbrev Line := List Char

/-! ## Base64 (Python `base64.urlsafe_b64encode` / `urlsafe_b64decode`)

`base64.urlsafe_b64encode(data)` is standard base64 over the alphabet
`A-Z a-z 0-9 - _` with `=` padding; `base64.urlsafe_b64decode` first
translates `-` to `+` and `_` to `/` and then performs a standard base64
decode (which discards characters outside the alphabet, `=` included,
before regrouping sextets). -/

/-- The standard base64 alphabet, indexed by sextet value. -/
def b64StdAlphabet : List Char :=
  "ABCDEFGHIJKLMNOPQRSTUVWXYZabcdefghijklmnopqrstuvwxyz0123456789+/".toList

/-- The URL-safe base64 alphabet (`-` and `_` instead of `+` and `/`). -/
def b64UrlAlphabet : List Char :=
  "ABCDEFGHIJKLMNOPQRSTUVWXYZabcdefghijklmnopqrstuvwxyz0123456789-_".toList

/-- Character for a sextet value in the URL-safe alphabet. -/
def urlChar (n : Nat) : Char := b64UrlAlphabet.getD n '='

/-- Index of a character in the standard alphabet (`none` when absent;
a standard decoder drops such characters, `=` padding included). -/
def stdIndex (c : Char) : Option Nat :=
  go c b64StdAlphabet
where
  go (c : Char) : List Char → Option Nat
    | [] => none
    | a :: rest => if a = c then some 0 else (go c rest).map Nat.succ

/-- `base64.urlsafe_b64encode` on a byte list: three bytes become four
alphabet characters; a final group of two or one bytes is padded with `=`. -/
def urlsafe_b64encode : List Nat → List Char
  | a :: b :: c :: rest =>
      urlChar (a / 4) :: urlChar ((a % 4) * 16 + b / 16) ::
      urlChar ((b % 16) * 4 + c / 64) :: urlChar (c % 64) ::
      urlsafe_b64encode rest
  | [a, b] => [urlChar (a / 4), urlChar ((a % 4) * 16 + b / 16),
               urlChar ((b % 16) * 4), '=']
  | [a] => [urlChar (a / 4), urlChar ((a % 4) * 16), '=', '=']
  | [] => []

/-- Regroup decoded sextet values into bytes (standard base64 decode after
the alphabet lookup): four sextets give three bytes, a trailing group of
three or two sextets gives two bytes or one. -/
def b64Regroup : List Nat → List Nat
  | p :: q :: r :: s :: rest =>
      (p * 4 + q / 16) :: ((q % 16) * 16 + r / 4) :: ((r % 4) * 64 + s) ::
      b64Regroup rest
  | [p, q, r] => [p * 4 + q / 16, (q % 16) * 16 + r / 4]
  | [p, q] => [p * 4 + q / 16]
  | _ => []

/-- Python's single-character `str.replace(old, new)`. -/
def pyReplaceChar (old new : Char) (s : Line) : Line :=
  s.map fun c => if c = old then new else c

/-- `base64.b64decode` (with the default `validate=False`): characters
outside the standard alphabet are discarded, the rest are regrouped. -/
def b64decode (cs : Line) : List Nat :=
  b64Regroup (cs.filterMap stdIndex)

/-- `base64.urlsafe_b64decode`: translate `-` to `+` and `_` to `/`, then
standard decode. -/
def urlsafe_b64decode (cs : Line) : List Nat :=
  b64decode (pyReplaceChar '-' '+' (pyReplaceChar '_' '/' cs))

/-! ### Base64 round-trip -/

/-- The composite per-character effect of replacing `_` by `/` and then
`-` by `+` (the translation performed by `parse_message` and again inside
`urlsafe_b64decode`). -/
def trChar (c : Char) : Char :=
  let c1 := if c = '_' then '/' else c
  if c1 = '-' then '+' else c1

/-! ## Lines

CPython's email feed parser is line oriented; we model the generated MIME
text and the parser's view of it as lists of `\n`-terminated lines. -/

/-- Split a character list at `\n` (the splitting CPython's feed parser
performs on 7-bit ASCII text without `\r`). -/
def splitOnNl : List Char → List Line
  | [] => [[]]
  | c :: rest =>
      let r := splitOnNl rest
      if c = '\n' then [] :: r
      else
        match r with
        | l :: ls => (c :: l) :: ls
        | [] => [[c]]

/-- Join lines with `\n` separators (inverse of `splitOnNl`). -/
def joinNl : List Line → List Char
  | [] => []
  | [l] => l
  | l :: ls => l ++ '\n' :: joinNl ls

lemma length_dropWhile_le {α : Type} (p : α → Bool) (l : List α) :
    (l.dropWhile p).length ≤ l.length := by
  induction l with
  | nil => simp
  | cons x rest ih =>
      simp only [List.dropWhile_cons]
      split
      · exact Nat.le_succ_of_le ih
      · simp

/-! ## MIME construction and parsing
(`GmailMessages.create_message` / `GmailMessages.parse_message`,
src/gmailwrapper/resources/messages.py)

`create_message` builds a `MIMEMultipart("alternative")` carrying `to`,
`from`, `subject` and optionally `Cc` headers, attaches a
`MIMEText(message_text, "plain")` part and, when `message_html` is truthy,
a `MIMEText(message_html, "html")` part, and returns
`{"raw": base64.urlsafe_b64encode(message.as_bytes()).decode()}`.
`message.as_bytes()` is CPython'sBytesGenerator output, modelled here
line-by-line for 7-bit ASCII content (compat32 policy: headers are emitted
verbatim in insertion order; each `MIMEText` part carries
`Content-Type: text/<subtype>; charset="us-ascii"`, `MIME-Version: 1.0`
and `Content-Transfer-Encoding: 7bit`; the multipart body interleaves
`--boundary` delimiter lines with the flattened parts and closes with
`--boundary--`; the generator picks a boundary that occurs nowhere in the
flattened parts). -/

/-- Shorthand: the character list of a string literal. -/
def toL (s : String) : Line := s.toList

/-- An ASCII string: every character is below code point 128 (the domain
on which Python's `.encode("ASCII")` / `.decode("ASCII")` succeed). -/
abbrev asciiL (l : Line) : Prop := ∀ c ∈ l, c.toNat < 128

/-- A `MIMEText` part as built by `create_message`: the content subtype
(`plain` or `html`) and the payload text. -/
structure MimeText where
  subtype : Line
  payload : Line
deriving DecidableEq, Repr

/-- The `MIMEMultipart("alternative")` message built by `create_message`:
the headers added after construction (in insertion order) and the attached
parts. -/
structure MultipartMessage where
  headers : List (Line × Line)
  parts : List MimeText
deriving DecidableEq, Repr

/-- The Python `cc` argument of `create_message`: absent, a single string,
or a list of strings. -/
inductive PyCc where
  | omitted
  | ofStr (s : Line)
  | ofList (ss : List Line)
deriving DecidableEq, Repr

/-- Python truthiness of the `cc` argument (`if cc:`): `None`, the empty
string and the empty list are falsy. -/
def PyCc.truthy : PyCc → Bool
  | .omitted => false
  | .ofStr s => !s.isEmpty
  | .ofList ss => !ss.isEmpty

/-- The `isinstance(cc, str)` normalization: a single string becomes a
one-element list. -/
def PyCc.normalized : PyCc → List Line
  | .omitted => []
  | .ofStr s => [s]
  | .ofList ss => ss

/-- Python's `", ".join`. -/
def commaJoin : List Line → Line
  | [] => []
  | [s] => s
  | s :: rest => s ++ [',', ' '] ++ commaJoin rest

/-- Python truthiness of the `message_html` argument: `None` and the empty
string are falsy. -/
def htmlTruthy : Option Line → Bool
  | Option.none => false
  | Option.some s => !s.isEmpty

namespace GmailMessages

/-- The MIME message object assembled by `create_message` before
serialization: headers `to`, `from`, `subject` (plus `Cc` when `cc` is
truthy, comma-joined after normalization), a plain part, and an html part
when `message_html` is truthy. -/
def create_message_mime (sender to_ subject message_text : Line)
    (message_html : Option Line) (cc : PyCc) : MultipartMessage :=
  { headers :=
      [(toL "to", to_), (toL "from", sender), (toL "subject", subject)] ++
        (if cc.truthy then [(toL "Cc", commaJoin cc.normalized)] else []),
    parts :=
      [⟨toL "plain", message_text⟩] ++
        (if htmlTruthy message_html then
          [⟨toL "html", message_html.getD []⟩] else []) }

end GmailMessages

/-- A rendered header line (compat32 generator: `name: value`). -/
def headerLine (nv : Line × Line) : Line := nv.1 ++ [':', ' '] ++ nv.2

/-- The `Content-Type` header line of the multipart message, carrying the
boundary chosen at generation time. -/
def ctHeaderLine (boundary : Line) : Line :=
  toL "Content-Type: multipart/alternative; boundary=\"" ++ boundary ++ ['"']

/-- The header lines of a flattened `MIMEText` part. -/
def partHeaderLines (subtype : Line) : List Line :=
  [toL "Content-Type: text/" ++ subtype ++ toL "; charset=\"us-ascii\"",
   toL "MIME-Version: 1.0",
   toL "Content-Transfer-Encoding: 7bit"]

/-- The lines of one flattened `MIMEText` part (its three headers, the
blank separator, and the payload split at newlines). -/
def partLines (p : MimeText) : List Line :=
  partHeaderLines p.subtype ++ [] :: splitOnNl p.payload

/-- The header block of the serialized multipart message. -/
def topHeaderLines (m : MultipartMessage) (boundary : Line) : List Line :=
  ctHeaderLine boundary :: toL "MIME-Version: 1.0" :: m.headers.map headerLine

/-- All lines of the serialized multipart message (`message.as_bytes()`
for a message with at least one part): top headers, blank separator, each
part preceded by its `--boundary` delimiter line, and the closing
`--boundary--` line followed by the final newline. -/
def messageLines (m : MultipartMessage) (boundary : Line) : List Line :=
  topHeaderLines m boundary ++ [[]] ++
    m.parts.flatMap (fun p => ('-' :: '-' :: boundary) :: partLines p) ++
    [('-' :: '-' :: boundary) ++ ['-', '-'], []]

namespace GmailMessages

/-- `create_message` (the value of the returned `"raw"` field):
URL-safe base64 of the ASCII bytes of the serialized message.  `boundary`
is the boundary the generator chooses while flattening. -/
def create_message (sender to_ subject message_text : Line)
    (message_html : Option Line) (cc : PyCc) (boundary : Line) : Line :=
  urlsafe_b64encode
    ((joinNl (messageLines
        (create_message_mime sender to_ subject message_text message_html cc)
        boundary)).map Char.toNat)

end GmailMessages

/-! ### Parsing (`email.message_from_string`, restricted to the
`multipart/alternative` documents this library produces).

CPython's feed parser reads header lines up to the first blank line, takes
the `boundary` parameter of the `Content-Type` header, splits the body at
`--boundary` delimiter lines (ending at `--boundary--`), parses each part's
header block up to its blank line, and strips the single newline preceding
each boundary from the preceding part's payload. -/

/-- A parsed MIME part: its header lines and its payload. -/
structure ParsedPart where
  headers : List Line
  payload : Line
deriving DecidableEq, Repr

/-- A parsed MIME message: top-level header lines and sub-parts. -/
structure ParsedMessage where
  headers : List Line
  parts : List ParsedPart
deriving DecidableEq, Repr

/-- Remove a leading occurrence of `pfx`, or fail. -/
def dropPfx : Line → Line → Option Line
  | [], l => Option.some l
  | _ :: _, [] => Option.none
  | p :: ps, c :: cs => if p = c then dropPfx ps cs else Option.none

/-- Leading text of the `Content-Type` header up to the quoted boundary. -/
def ctMarker : Line := toL "Content-Type: multipart/alternative; boundary=\""

/-- Read the boundary out of a rendered `Content-Type` header line. -/
def boundaryOfHeader (l : Line) : Option Line :=
  match dropPfx ctMarker l with
  | Option.some rest =>
      if rest.getLast? = Option.some '"' then Option.some rest.dropLast
      else Option.none
  | Option.none => Option.none

/-- The boundary parameter found in a header block. -/
def extractBoundary (hdrs : List Line) : Option Line :=
  hdrs.findSome? boundaryOfHeader

/-- A non-blank line (header block continues). -/
def notBlank (l : Line) : Bool := !l.isEmpty

/-- A boundary delimiter line: `--boundary` opens a part, `--boundary--`
closes the multipart body. -/
def isDelim (openD closeD : Line) (l : Line) : Bool :=
  decide (l = openD) || decide (l = closeD)

/-- Split the body lines into the line blocks of the individual parts:
skip any preamble, then each `--boundary` line starts a part that extends
to the next delimiter; `--boundary--` ends the body. -/
def splitParts (openD closeD : Line) : List Line → List (List Line)
  | [] => []
  | l :: ls =>
      if l = closeD then []
      else if l = openD then
        ls.takeWhile (fun x => !isDelim openD closeD x) ::
          splitParts openD closeD
            (ls.dropWhile (fun x => !isDelim openD closeD x))
      else splitParts openD closeD ls
termination_by ls => ls.length
decreasing_by
  · exact Nat.lt_succ_of_le (length_dropWhile_le _ ls)
  · exact Nat.lt_succ_self _

/-- Parse one part's line block: headers up to the blank line, then the
payload rejoined from the remaining lines (the newline before the next
boundary already belongs to the delimiter). -/
def parsePart (lines : List Line) : ParsedPart :=
  ⟨lines.takeWhile notBlank, joinNl ((lines.dropWhile notBlank).drop 1)⟩

/-- `email.message_from_string` on the documents at hand. -/
def message_from_string (s : Line) : ParsedMessage :=
  let lines := splitOnNl s
  let hdrs := lines.takeWhile notBlank
  let body := (lines.dropWhile notBlank).drop 1
  match extractBoundary hdrs with
  | Option.some b =>
      ⟨hdrs,
        (splitParts ('-' :: '-' :: b) (('-' :: '-' :: b) ++ ['-', '-'])
          body).map parsePart⟩
  | Option.none => ⟨hdrs, []⟩

namespace GmailMessages

/-- `parse_message`: translate `_` to `/` and `-` to `+`, URL-safe base64
decode, decode the bytes as ASCII, and parse the MIME document. -/
def parse_message (raw_content : Line) : ParsedMessage :=
  message_from_string
    ((urlsafe_b64decode
      (pyReplaceChar '-' '+' (pyReplaceChar '_' '/' raw_content))).map
        Char.ofNat)

end GmailMessages

/-! ## JSON values (decoded `response.json()` payloads) -/

/-- A decoded JSON value. -/
inductive Json where
  | obj (fields : List (String × Json))
  | arr (items : List Json)
  | str (s : String)
  | num (n : Int)
  | bool (b : Bool)
  | null
deriving BEq, Repr

/-- Python `dict.get(key)` on a decoded JSON object (the client's responses
are decoded JSON objects, as typed in the source). -/
def Json.get (j : Json) (key : String) : Option Json :=
  match j with
  | .obj fields => fields.lookup key
  | _ => Option.none

/-- The list stored in an envelope value (list endpoints store the stubs as
a JSON array; Python iterates that list directly). -/
def Json.items : Json → List Json
  | .arr l => l
  | _ => []

/-! ## Exceptions (src/gmailwrapper/exceptions.py)

One inductive carries the concrete exception classes raised by the core:
`GmailAPIError` (with its `status_code` and `response` fields),
`GmailRequestError`, `GmailResourceError`, `GmailCredentialsError`,
`GmailTokenError`, plus the builtin `ValueError` of the method check and
the `json` module's decode error (which `request` does not catch). -/

inductive GmailError where
  | apiError (message : String) (status_code : Nat) (response : String)
  | requestError (message : String)
  | resourceError (message : String)
  | credentialsError (message : String)
  | tokenError (message : String)
  | valueError (message : String)
  | jsonDecodeError (message : String)
deriving DecidableEq, Repr

/-- `str(e)`: the message of an exception. -/
def GmailError.msg : GmailError → String
  | .apiError m _ _ => m
  | .requestError m => m
  | .resourceError m => m
  | .credentialsError m => m
  | .tokenError m => m
  | .valueError m => m
  | .jsonDecodeError m => m

def GmailError.isAPIError : GmailError → Bool
  | .apiError _ _ _ => true
  | _ => false

def GmailError.isRequestError : GmailError → Bool
  | .requestError _ => true
  | _ => false

def GmailError.isResourceError : GmailError → Bool
  | .resourceError _ => true
  | _ => false

def GmailError.isValueError : GmailError → Bool
  | .valueError _ => true
  | _ => false

/-! ## Configuration (src/gmailwrapper/config.py) -/

/-- The `GmailConfig` dataclass with its default field values. -/
structure GmailConfig where
  BASE_URL : String := "https://gmail.googleapis.com/gmail/v1/users/me"
  MESSAGES_ENDPOINT : String := "messages"
  DRAFTS_ENDPOINT : String := "drafts"
  THREADS_ENDPOINT : String := "threads"
  SEND_ENDPOINT : String := "messages/send"
  TRASH_SUFFIX : String := "trash"
  UNTRASH_SUFFIX : String := "untrash"
  FULL_FORMAT : String := "full"
deriving DecidableEq, Repr

/-- The configuration instance the facade constructs (`GmailConfig()`). -/
def defaultConfig : GmailConfig := {}

/-! ## HTTP client (src/gmailwrapper/client.py)

`GmailHTTPClient.request` dispatches on the method string, performs the
`httpx` call, runs `raise_for_status` (an `httpx.HTTPStatusError` for any
non-2xx status) and decodes the JSON body; `httpx.HTTPStatusError` becomes
`GmailAPIError` carrying the response's status code and text, and
`httpx.RequestError` (transport failure, no response) becomes
`GmailRequestError`.  The network is a parameter: `ClientBehavior` maps a
method and URL to the outcome `httpx` produces for it.  Each embedded
operation returns the trace of HTTP calls issued alongside its result
(auth-header acquisition is outside the model; claims about the client
assume headers were obtained). -/

/-- One HTTP call issued through the `httpx` client: the method, the full
URL, and the JSON body sent (for POST/PUT). -/
structure NetCall where
  method : String
  url : String
  body : Option Json
deriving BEq, Repr

/-- What the network does for a call: a completed response (status, body
text, decoded JSON when the body parses) or a transport-level failure. -/
inductive HttpOutcome where
  | response (status_code : Nat) (text : String) (json : Option Json)
  | transportError (message : String)

/-- The stubbed network. -/
def ClientBehavior := String → String → HttpOutcome

/-- `httpx.Response.is_success`: a 2xx status (`raise_for_status` raises
`httpx.HTTPStatusError` otherwise). -/
def is2xx (status : Nat) : Bool := decide (200 ≤ status) && decide (status < 300)

namespace GmailHTTPClient

/-- The body of `request`'s `try` block for one verb call, together with
the two `except` clauses: `raise_for_status` then `response.json()`;
`httpx.HTTPStatusError` is re-raised as `GmailAPIError` with the
response's status code and text, `httpx.RequestError` as
`GmailRequestError`.  A body that is not JSON raises the `json` module's
decode error, which neither clause catches. -/
def perform (behavior : ClientBehavior) (method url : String)
    (body : Option Json) : List NetCall × Except GmailError Json :=
  ([⟨method, url, body⟩],
    match behavior method url with
    | .response status text j =>
        if is2xx status then
          match j with
          | Option.some v => .ok v
          | Option.none => .error (.jsonDecodeError "Expecting value")
        else
          .error (.apiError
            ("HTTP error for " ++ url ++ " - " ++ toString status ++ " - "
              ++ text)
            status text)
    | .transportError m =>
        .error (.requestError ("Request error for " ++ url ++ ": " ++ m)))

/-- `GmailHTTPClient.request`: build the URL, dispatch on the method
string, else raise `ValueError` (raised inside the `try`, but caught by
neither `except` clause) before any call is issued. -/
def request (behavior : ClientBehavior) (base_url : String)
    (method endpoint : String) (data : Option Json) :
    List NetCall × Except GmailError Json :=
  let url := base_url ++ "/" ++ endpoint
  if method = "GET" then perform behavior "GET" url Option.none
  else if method = "POST" then perform behavior "POST" url data
  else if method = "PUT" then perform behavior "PUT" url data
  else if method = "DELETE" then perform behavior "DELETE" url Option.none
  else ([], .error (.valueError ("Unsupported HTTP method: " ++ method)))

/-- `GmailHTTPClient.get`. -/
def get (behavior : ClientBehavior) (base_url endpoint : String) :
    List NetCall × Except GmailError Json :=
  request behavior base_url "GET" endpoint Option.none

/-- `GmailHTTPClient.post`. -/
def post (behavior : ClientBehavior) (base_url endpoint : String)
    (data : Json) : List NetCall × Except GmailError Json :=
  request behavior base_url "POST" endpoint (Option.some data)

/-- `GmailHTTPClient.put`. -/
def put (behavior : ClientBehavior) (base_url endpoint : String)
    (data : Json) : List NetCall × Except GmailError Json :=
  request behavior base_url "PUT" endpoint (Option.some data)

/-- `GmailHTTPClient.delete`. -/
def delete (behavior : ClientBehavior) (base_url endpoint : String) :
    List NetCall × Except GmailError Json :=
  request behavior base_url "DELETE" endpoint Option.none

end GmailHTTPClient

/-! ## Resource handlers (src/gmailwrapper/resources/base.py and the
three concrete resources)

Every operation wraps its client call in `try: ... except Exception as e:
raise GmailResourceError(...)`. -/

namespace BaseGmailResource

/-- `BaseGmailResource.get_all`: GET the endpoint, unwrap the envelope via
`response.get(list_key, [])`; any failure becomes `GmailResourceError`. -/
def get_all (behavior : ClientBehavior) (base_url : String)
    (endpoint list_key : String) : List NetCall × Except GmailError Json :=
  let (tr, res) := GmailHTTPClient.get behavior base_url endpoint
  (tr,
    match res with
    | .ok response =>
        .ok (match response.get list_key with
             | Option.some v => v
             | Option.none => Json.arr [])
    | .error e =>
        .error (.resourceError
          ("Failed to get " ++ endpoint ++ ": " ++ e.msg)))

/-- `BaseGmailResource.get_by_id`. -/
def get_by_id (behavior : ClientBehavior) (base_url : String)
    (endpoint resource_id : String) : List NetCall × Except GmailError Json :=
  let full_endpoint := endpoint ++ "/" ++ resource_id
  let (tr, res) := GmailHTTPClient.get behavior base_url full_endpoint
  (tr,
    match res with
    | .ok v => .ok v
    | .error e =>
        .error (.resourceError
          ("Failed to get " ++ endpoint ++ "/" ++ resource_id ++ ": "
            ++ e.msg)))

/-- `BaseGmailResource.create`. -/
def create (behavior : ClientBehavior) (base_url : String)
    (endpoint : String) (data : Json) :
    List NetCall × Except GmailError Json :=
  let (tr, res) := GmailHTTPClient.post behavior base_url endpoint data
  (tr,
    match res with
    | .ok v => .ok v
    | .error e =>
        .error (.resourceError
          ("Failed to create " ++ endpoint ++ ": " ++ e.msg)))

/-- `BaseGmailResource.update`. -/
def update (behavior : ClientBehavior) (base_url : String)
    (endpoint resource_id : String) (data : Json) :
    List NetCall × Except GmailError Json :=
  let full_endpoint := endpoint ++ "/" ++ resource_id
  let (tr, res) := GmailHTTPClient.put behavior base_url full_endpoint data
  (tr,
    match res with
    | .ok v => .ok v
    | .error e =>
        .error (.resourceError
          ("Failed to update " ++ endpoint ++ "/" ++ resource_id ++ ": "
            ++ e.msg)))

/-- `BaseGmailResource.delete`: DELETE
`<endpoint>/<resource_id>/<TRASH_SUFFIX>`; the JSON result is discarded. -/
def delete (behavior : ClientBehavior) (base_url : String)
    (config : GmailConfig) (endpoint resource_id : String) :
    List NetCall × Except GmailError Unit :=
  let full_endpoint :=
    endpoint ++ "/" ++ resource_id ++ "/" ++ config.TRASH_SUFFIX
  let (tr, res) := GmailHTTPClient.delete behavior base_url full_endpoint
  (tr,
    match res with
    | .ok _ => .ok ()
    | .error e =>
        .error (.resourceError
          ("Failed to delete " ++ endpoint ++ "/" ++ resource_id ++ ": "
            ++ e.msg)))

/-- `BaseGmailResource.undelete`: POST
`<endpoint>/<resource_id>/<UNTRASH_SUFFIX>` with an empty JSON object. -/
def undelete (behavior : ClientBehavior) (base_url : String)
    (config : GmailConfig) (endpoint resource_id : String) :
    List NetCall × Except GmailError Unit :=
  let full_endpoint :=
    endpoint ++ "/" ++ resource_id ++ "/" ++ config.UNTRASH_SUFFIX
  let (tr, res) :=
    GmailHTTPClient.post behavior base_url full_endpoint (Json.obj [])
  (tr,
    match res with
    | .ok _ => .ok ()
    | .error e =>
        .error (.resourceError
          ("Failed to undelete " ++ endpoint ++ "/" ++ resource_id ++ ": "
            ++ e.msg)))

/-- `asyncio.gather(*tasks)` (default `return_exceptions=False`): results
are returned in the order the tasks were passed; a failing task's
exception propagates and no partial result list is produced. -/
def gatherTasks (ids : List (Option Json))
    (get_detail_func : Option Json → Except GmailError Json) :
    Except GmailError (List Json) :=
  match ids with
  | [] => .ok []
  | id :: rest =>
      match get_detail_func id with
      | .error e => .error e
      | .ok v =>
          match gatherTasks rest get_detail_func with
          | .ok vs => .ok (v :: vs)
          | .error e => .error e

/-- `BaseGmailResource.get_all_with_details`: list the endpoint via
`get_all`, return `[]` for an empty stub list, otherwise create one detail
task per stub (passing `resource.get("id")`) and gather them.  The middle
component is the argument trace of detail-task creation, in order. -/
def get_all_with_details (behavior : ClientBehavior) (base_url : String)
    (endpoint list_key : String)
    (get_detail_func : Option Json → Except GmailError Json) :
    List NetCall × List (Option Json) × Except GmailError (List Json) :=
  let (tr, res) := get_all behavior base_url endpoint list_key
  match res with
  | .error e => (tr, [], .error e)
  | .ok r =>
      let resources := r.items
      if resources.isEmpty then (tr, [], .ok [])
      else
        let ids := resources.map (fun resource => resource.get "id")
        (tr, ids, gatherTasks ids get_detail_func)

end BaseGmailResource

/-- The three concrete resource handlers and the envelope keys / endpoints
their `get_all` overrides pass to `BaseGmailResource.get_all`. -/
inductive ResourceKind where
  | messages
  | drafts
  | threads
deriving DecidableEq, Repr

def ResourceKind.endpoint (config : GmailConfig) : ResourceKind → String
  | .messages => config.MESSAGES_ENDPOINT
  | .drafts => config.DRAFTS_ENDPOINT
  | .threads => config.THREADS_ENDPOINT

def ResourceKind.list_key : ResourceKind → String
  | .messages => "messages"
  | .drafts => "drafts"
  | .threads => "threads"

/-- `GmailMessages.get_all` / `GmailDrafts.get_all` / `GmailThreads.get_all`
with `details=False`: delegate to the base `get_all` with the resource's
endpoint and envelope key. -/
def resource_get_all (behavior : ClientBehavior) (config : GmailConfig)
    (kind : ResourceKind) : List NetCall × Except GmailError Json :=
  BaseGmailResource.get_all behavior config.BASE_URL
    (kind.endpoint config) kind.list_key

/-! ## Authenticator (src/gmailwrapper/auth.py)

`get_credentials` consults the in-memory cache, then the persisted token
file, then refreshes or runs the OAuth flow, persisting (best-effort) any
newly obtained credential.  The external collaborators are parameters:
what loading the token file yields (`none` when `os.path.exists` is
false), what `creds.refresh(Request())` yields, and what
`_get_new_credentials()` yields (its own `GmailCredentialsError` when the
secrets file is missing or the flow fails).  Each run returns the trace of
token-storage operations performed alongside the result and the new cache
state. -/

/-- The fields of a `google.oauth2.credentials.Credentials` object the
algorithm inspects. -/
structure PyCredentials where
  valid : Bool
  expired : Bool
  has_refresh_token : Bool
deriving DecidableEq, Repr

/-- Operations on the persisted token storage. -/
inductive StorageOp where
  | readToken
  | writeToken
deriving DecidableEq, Repr

/-- The external collaborators of one `get_credentials` run. -/
structure AuthEnv where
  token_file : Option PyCredentials
  refresh_result : Except String PyCredentials
  flow_result : Except String PyCredentials

namespace GmailAuthenticator

/-- The part of `get_credentials` that runs when there is no valid cached
credential: load, then refresh / re-authorize as needed, save, cache. -/
def get_credentials_uncached (env : AuthEnv) :
    List StorageOp × Except GmailError (PyCredentials × Option PyCredentials) :=
  match env.token_file with
  | Option.some creds =>
      if creds.valid then
        ([StorageOp.readToken], .ok (creds, Option.some creds))
      else if creds.expired && creds.has_refresh_token then
        match env.refresh_result with
        | .ok refreshed =>
            ([StorageOp.readToken, StorageOp.writeToken],
              .ok (refreshed, Option.some refreshed))
        | .error e =>
            ([StorageOp.readToken],
              .error (.tokenError ("Failed to refresh token: " ++ e)))
      else
        match env.flow_result with
        | .ok fresh =>
            ([StorageOp.readToken, StorageOp.writeToken],
              .ok (fresh, Option.some fresh))
        | .error e => ([StorageOp.readToken], .error (.credentialsError e))
  | Option.none =>
      match env.flow_result with
      | .ok fresh => ([StorageOp.writeToken], .ok (fresh, Option.some fresh))
      | .error e => ([], .error (.credentialsError e))

/-- `GmailAuthenticator.get_credentials`: return the cached credential when
it exists and is valid (touching nothing else), otherwise fall through to
the load/refresh/flow path.  Returns the storage-operation trace, and on
success the returned credential together with the new `_credentials`
cache. -/
def get_credentials (cached : Option PyCredentials) (env : AuthEnv) :
    List StorageOp × Except GmailError (PyCredentials × Option PyCredentials) :=
  match cached with
  | Option.some c =>
      if c.valid then ([], .ok (c, Option.some c))
      else get_credentials_uncached env
  | Option.none => get_credentials_uncached env

end GmailAuthenticator

/-! ## Lemma layer: base64 -/

lemma replace_replace_eq_map_trChar (s : Line) :
    pyReplaceChar '-' '+' (pyReplaceChar '_' '/' s) = s.map trChar := by
  simp [pyReplaceChar, trChar]

/-- After the translation, a URL-safe alphabet character for a sextet value
below 64 looks up to exactly that value in the standard alphabet. -/
lemma stdIndex_trChar_urlChar :
    ∀ n : Fin 64, stdIndex (trChar (urlChar n.1)) = some n.1 := by
  decide

lemma stdIndex_trChar_urlChar_of_lt {n : Nat} (h : n < 64) :
    stdIndex (trChar (urlChar n)) = some n :=
  stdIndex_trChar_urlChar ⟨n, h⟩

/-- The padding character `=` survives the translation and is not in the
standard alphabet. -/
lemma stdIndex_trChar_pad : stdIndex (trChar '=') = none := by
  decide

lemma trChar_trChar (c : Char) : trChar (trChar c) = trChar c := by
  simp only [trChar]
  split_ifs <;> simp_all

/-- Core base64 round-trip: decoding the translated URL-safe encoding of a
byte list gives back the bytes. -/
theorem b64_regroup_roundtrip :
    ∀ bs : List Nat, (∀ b ∈ bs, b < 256) →
      b64Regroup (((urlsafe_b64encode bs).map trChar).filterMap stdIndex) = bs
  | [], _ => rfl
  | [a], h => by
      have ha : a < 256 := h a (by simp)
      simp only [urlsafe_b64encode, List.map_cons, List.map_nil,
        List.filterMap_cons, List.filterMap_nil,
        stdIndex_trChar_urlChar_of_lt (show a / 4 < 64 by omega),
        stdIndex_trChar_urlChar_of_lt (show (a % 4) * 16 < 64 by omega),
        stdIndex_trChar_pad]
      simp only [b64Regroup, List.cons.injEq, and_true]
      omega
  | [a, b], h => by
      have ha : a < 256 := h a (by simp)
      have hb : b < 256 := h b (by simp)
      simp only [urlsafe_b64encode, List.map_cons, List.map_nil,
        List.filterMap_cons, List.filterMap_nil,
        stdIndex_trChar_urlChar_of_lt (show a / 4 < 64 by omega),
        stdIndex_trChar_urlChar_of_lt (show (a % 4) * 16 + b / 16 < 64 by omega),
        stdIndex_trChar_urlChar_of_lt (show (b % 16) * 4 < 64 by omega),
        stdIndex_trChar_pad]
      simp only [b64Regroup, List.cons.injEq, and_true]
      omega
  | a :: b :: c :: rest, h => by
      have ha : a < 256 := h a (by simp)
      have hb : b < 256 := h b (by simp)
      have hc : c < 256 := h c (by simp)
      have ih := b64_regroup_roundtrip rest
        (fun x hx => h x (by simp [List.mem_cons] at hx ⊢; tauto))
      simp only [urlsafe_b64encode, List.map_cons, List.filterMap_cons,
        stdIndex_trChar_urlChar_of_lt (show a / 4 < 64 by omega),
        stdIndex_trChar_urlChar_of_lt (show (a % 4) * 16 + b / 16 < 64 by omega),
        stdIndex_trChar_urlChar_of_lt
          (show (b % 16) * 4 + c / 64 < 64 by omega),
        stdIndex_trChar_urlChar_of_lt (show c % 64 < 64 by omega)]
      simp only [b64Regroup]
      rw [ih]
      simp only [List.cons.injEq, and_true]
      omega

/-- `urlsafe_b64decode` after the two `str.replace` calls of `parse_message`
inverts `urlsafe_b64encode`. -/
theorem urlsafe_decode_encode (bs : List Nat) (h : ∀ b ∈ bs, b < 256) :
    urlsafe_b64decode
      (pyReplaceChar '-' '+' (pyReplaceChar '_' '/' (urlsafe_b64encode bs))) =
      bs := by
  rw [urlsafe_b64decode, replace_replace_eq_map_trChar,
    replace_replace_eq_map_trChar, b64decode, List.map_map]
  have : trChar ∘ trChar = trChar := by
    funext c; exact trChar_trChar c
  rw [this]
  exact b64_regroup_roundtrip bs h

/-! ## Lemma layer: lines -/

lemma splitOnNl_ne_nil (cs : List Char) : splitOnNl cs ≠ [] := by
  induction cs with
  | nil => simp [splitOnNl]
  | cons c rest ih =>
      simp only [splitOnNl]
      split
      · simp
      · match h : splitOnNl rest with
        | [] => simp
        | l :: ls => simp [h]

lemma joinNl_splitOnNl (cs : List Char) : joinNl (splitOnNl cs) = cs := by
  induction cs with
  | nil => rfl
  | cons c rest ih =>
      simp only [splitOnNl]
      split
      · rename_i hc
        subst hc
        match h : splitOnNl rest with
        | [] => exact absurd h (splitOnNl_ne_nil rest)
        | [l] => rw [h] at ih; simpa [joinNl] using congrArg (('\n' :: ·)) ih
        | l :: l2 :: ls =>
            rw [h] at ih
            simp only [joinNl] at ih ⊢
            simp [ih]
      · match h : splitOnNl rest with
        | [] => exact absurd h (splitOnNl_ne_nil rest)
        | [l] => rw [h] at ih; simpa [joinNl] using congrArg ((c :: ·)) ih
        | l :: l2 :: ls =>
            rw [h] at ih
            simp only [joinNl] at ih ⊢
            simp [ih]

lemma splitOnNl_of_no_nl (l : Line) (h : '\n' ∉ l) : splitOnNl l = [l] := by
  induction l with
  | nil => rfl
  | cons c rest ih =>
      simp only [List.mem_cons, not_or] at h
      have hc : ¬c = '\n' := fun hh => h.1 hh.symm
      simp only [splitOnNl, if_neg hc, ih h.2]

lemma splitOnNl_append_nl (l : Line) (cs : List Char) (h : '\n' ∉ l) :
    splitOnNl (l ++ '\n' :: cs) = l :: splitOnNl cs := by
  induction l with
  | nil => simp [splitOnNl]
  | cons c rest ih =>
      simp only [List.mem_cons, not_or] at h
      have hc : ¬c = '\n' := fun hh => h.1 hh.symm
      simp only [List.cons_append, splitOnNl, if_neg hc, List.append_eq,
        ih h.2]

lemma splitOnNl_joinNl :
    ∀ lines : List Line, lines ≠ [] → (∀ l ∈ lines, '\n' ∉ l) →
      splitOnNl (joinNl lines) = lines
  | [], h, _ => absurd rfl h
  | [l], _, hm => by
      simp only [joinNl]
      exact splitOnNl_of_no_nl l (hm l (by simp))
  | l :: l2 :: ls, _, hm => by
      have ih := splitOnNl_joinNl (l2 :: ls) (by simp)
        (fun x hx => hm x (by simp [List.mem_cons] at hx ⊢; tauto))
      simp only [joinNl]
      rw [splitOnNl_append_nl l _ (hm l (by simp)), ih]

/-- Characters of joined lines: every character comes from some line or is
the separator. -/
lemma mem_joinNl :
    ∀ (lines : List Line) (c : Char), c ∈ joinNl lines →
      c = '\n' ∨ ∃ l ∈ lines, c ∈ l
  | [], _, h => by simp [joinNl] at h
  | [l], c, h => by
      simp only [joinNl] at h
      exact Or.inr ⟨l, by simp, h⟩
  | l :: l2 :: ls, c, h => by
      simp only [joinNl, List.mem_append, List.mem_cons] at h
      rcases h with h | h | h
      · exact Or.inr ⟨l, by simp, h⟩
      · exact Or.inl h
      · rcases mem_joinNl (l2 :: ls) c h with h | ⟨x, hx, hc⟩
        · exact Or.inl h
        · exact Or.inr ⟨x, by simp [List.mem_cons] at hx ⊢; tauto, hc⟩

/-- Every character of a line produced by `splitOnNl` occurs in the input. -/
lemma mem_of_mem_splitOnNl :
    ∀ (cs : List Char) (l : Line), l ∈ splitOnNl cs → ∀ c ∈ l, c ∈ cs := by
  intro cs
  induction cs with
  | nil => intro l hl c hc; simp [splitOnNl] at hl; subst hl; simp at hc
  | cons x rest ih =>
      intro l hl c hc
      simp only [splitOnNl] at hl
      split at hl
      · rcases List.mem_cons.mp hl with h | h
        · subst h; simp at hc
        · exact List.mem_cons_of_mem x (ih l h c hc)
      · match h : splitOnNl rest with
        | [] => exact absurd h (splitOnNl_ne_nil rest)
        | m :: ms =>
            rw [h] at hl
            rcases List.mem_cons.mp hl with h2 | h2
            · subst h2
              rcases List.mem_cons.mp hc with h3 | h3
              · subst h3; simp
              · exact List.mem_cons_of_mem x
                  (ih m (by rw [h]; simp) c h3)
            · exact List.mem_cons_of_mem x
                (ih l (by rw [h]; simp [h2]) c hc)

/-- Lines produced by `splitOnNl` never contain `\n`. -/
lemma nl_not_mem_splitOnNl :
    ∀ (cs : List Char) (l : Line), l ∈ splitOnNl cs → '\n' ∉ l := by
  intro cs
  induction cs with
  | nil => intro l hl; simp [splitOnNl] at hl; subst hl; simp
  | cons x rest ih =>
      intro l hl
      simp only [splitOnNl] at hl
      split at hl
      · rcases List.mem_cons.mp hl with h | h
        · subst h; simp
        · exact ih l h
      · rename_i hx
        match h : splitOnNl rest with
        | [] => exact absurd h (splitOnNl_ne_nil rest)
        | m :: ms =>
            rw [h] at hl
            rcases List.mem_cons.mp hl with h2 | h2
            · subst h2
              intro hmem
              rcases List.mem_cons.mp hmem with h3 | h3
              · exact hx h3.symm
              · exact ih m (by rw [h]; simp) h3
            · exact ih l (by rw [h]; simp [h2])

/-- `takeWhile` over an append whose first half satisfies the predicate. -/
lemma takeWhile_append_all {α : Type} (p : α → Bool) (xs ys : List α)
    (h : ∀ x ∈ xs, p x = true) :
    (xs ++ ys).takeWhile p = xs ++ ys.takeWhile p := by
  induction xs with
  | nil => simp
  | cons x rest ih =>
      rw [List.cons_append, List.takeWhile_cons, if_pos (h x (by simp)),
        List.cons_append]
      exact congrArg (x :: ·) (ih fun y hy => h y (by simp [hy]))

/-- `dropWhile` over an append whose first half satisfies the predicate. -/
lemma dropWhile_append_all {α : Type} (p : α → Bool) (xs ys : List α)
    (h : ∀ x ∈ xs, p x = true) :
    (xs ++ ys).dropWhile p = ys.dropWhile p := by
  induction xs with
  | nil => simp
  | cons x rest ih =>
      simp only [List.cons_append, List.dropWhile_cons, h x (by simp),
        if_true]
      exact ih fun y hy => h y (by simp [hy])

/-! ## Lemma layer: HTTP client, resources, authenticator -/

lemma is2xx_eq_false {status : Nat} (h : ¬(200 ≤ status ∧ status < 300)) :
    is2xx status = false := by
  simp only [is2xx, Bool.and_eq_false_iff, decide_eq_false_iff_not]
  omega

/-- `asyncio.gather` over tasks that all succeed returns the mapped
results, in task order. -/
lemma gatherTasks_ok (f : Option Json → Json) :
    ∀ ids : List (Option Json),
      BaseGmailResource.gatherTasks ids (fun i => .ok (f i)) =
        .ok (ids.map f)
  | [] => rfl
  | _ :: rest => by
      simp only [BaseGmailResource.gatherTasks, gatherTasks_ok f rest,
        List.map_cons]

/-- C5: For every method string not in `{GET, POST, PUT, DELETE}`,
`request(method, ...)` fails with a `ValueError`-class error, and this
failure occurs before any network call is made (the trace of issued HTTP
calls is empty). -/
theorem claim_C5_unsupported_method (behavior : ClientBehavior)
    (base_url method endpoint : String) (data : Option Json)
    (h : method ≠ "GET" ∧ method ≠ "POST" ∧ method ≠ "PUT" ∧
      method ≠ "DELETE") :
    GmailHTTPClient.request behavior base_url method endpoint data =
      ([], .error (.valueError ("Unsupported HTTP method: " ++ method))) ∧
    (GmailError.valueError
      ("Unsupported HTTP method: " ++ method)).isValueError = true := by
  obtain ⟨h1, h2, h3, h4⟩ := h
  refine ⟨?_, rfl⟩
  simp only [GmailHTTPClient.request, if_neg h1, if_neg h2, if_neg h3,
    if_neg h4]

/-- Witness for C5 at the concrete method `PATCH`. -/
theorem claim_C5_witness :
    GmailHTTPClient.request (fun _ _ => HttpOutcome.transportError "down")
      "https://gmail.googleapis.com/gmail/v1/users/me" "PATCH" "messages"
      Option.none =
      ([], .error (.valueError ("Unsupported HTTP method: " ++ "PATCH"))) :=
  (claim_C5_unsupported_method (fun _ _ => HttpOutcome.transportError "down")
    "https://gmail.googleapis.com/gmail/v1/users/me" "PATCH" "messages"
    Option.none (by refine ⟨?_, ?_, ?_, ?_⟩ <;> decide)).1

/-- C3: For every request issued by the HTTP client: if the call completes
with a non-2xx status, the client raises `GmailAPIError` carrying exactly
that response's status code and body text; if the call fails at the
transport level (no response received), the client raises
`GmailRequestError` and not `GmailAPIError`. -/
theorem claim_C3_failure_taxonomy :
    (∀ (behavior : ClientBehavior) (base_url method endpoint : String)
        (data : Option Json) (status : Nat) (text : String)
        (j : Option Json),
      (method = "GET" ∨ method = "POST" ∨ method = "PUT" ∨
        method = "DELETE") →
      behavior method (base_url ++ "/" ++ endpoint) =
        .response status text j →
      ¬(200 ≤ status ∧ status < 300) →
      (GmailHTTPClient.request behavior base_url method endpoint data).2 =
        .error (.apiError
          ("HTTP error for " ++ (base_url ++ "/" ++ endpoint) ++ " - " ++
            toString status ++ " - " ++ text)
          status text)) ∧
    (∀ (behavior : ClientBehavior) (base_url method endpoint : String)
        (data : Option Json) (m : String),
      (method = "GET" ∨ method = "POST" ∨ method = "PUT" ∨
        method = "DELETE") →
      behavior method (base_url ++ "/" ++ endpoint) = .transportError m →
      (GmailHTTPClient.request behavior base_url method endpoint data).2 =
        .error (.requestError
          ("Request error for " ++ (base_url ++ "/" ++ endpoint) ++ ": "
            ++ m)) ∧
      ∀ e, (GmailHTTPClient.request behavior base_url method endpoint
        data).2 = .error e → e.isAPIError = false) := by
  constructor
  · intro behavior base_url method endpoint data status text j hm hresp hst
    rcases hm with h | h | h | h <;> subst h <;>
      simp [GmailHTTPClient.request, GmailHTTPClient.perform, hresp,
        is2xx_eq_false hst]
  · intro behavior base_url method endpoint data m hm hresp
    rcases hm with h | h | h | h <;> subst h <;>
      refine ⟨by simp [GmailHTTPClient.request, GmailHTTPClient.perform,
        hresp], ?_⟩ <;>
      · intro e he
        simp [GmailHTTPClient.request, GmailHTTPClient.perform, hresp]
          at he
        subst he
        rfl

/-- Witness for C3: a stubbed 404 yields `GmailAPIError 404`; a stubbed
transport failure yields `GmailRequestError`, which is not an
`GmailAPIError`. -/
theorem claim_C3_witness :
    (GmailHTTPClient.request
      (fun _ _ => HttpOutcome.response 404 "not found" Option.none)
      "base" "GET" "messages" Option.none).2 =
      .error (.apiError
        ("HTTP error for " ++ ("base" ++ "/" ++ "messages") ++ " - " ++
          toString 404 ++ " - " ++ "not found") 404 "not found") ∧
    (GmailHTTPClient.request
      (fun _ _ => HttpOutcome.transportError "refused")
      "base" "POST" "messages" (Option.some (Json.obj []))).2 =
      .error (.requestError
        ("Request error for " ++ ("base" ++ "/" ++ "messages") ++ ": "
          ++ "refused")) := by
  constructor
  · exact claim_C3_failure_taxonomy.1
      (fun _ _ => HttpOutcome.response 404 "not found" Option.none)
      "base" "GET" "messages" Option.none 404 "not found" Option.none
      (Or.inl rfl) rfl (by omega)
  · exact (claim_C3_failure_taxonomy.2
      (fun _ _ => HttpOutcome.transportError "refused")
      "base" "POST" "messages" (Option.some (Json.obj [])) "refused"
      (Or.inr (Or.inl rfl)) rfl).1

/-- C4: For every resource-handler operation (`get_all`, `get_by_id`,
`create`, `update`, `delete`, `undelete`) and every error raised by the
underlying HTTP client call (including `GmailAPIError` and
`GmailRequestError`), the handler raises `GmailResourceError`; the caller
never observes the original error type at the handler boundary. -/
theorem claim_C4_handlers_wrap_as_resource_error :
    (∀ (behavior : ClientBehavior) (base_url endpoint list_key : String)
        (e : GmailError),
      (GmailHTTPClient.get behavior base_url endpoint).2 = .error e →
      (BaseGmailResource.get_all behavior base_url endpoint list_key).2 =
        .error (.resourceError
          ("Failed to get " ++ endpoint ++ ": " ++ e.msg))) ∧
    (∀ (behavior : ClientBehavior) (base_url endpoint resource_id : String)
        (e : GmailError),
      (GmailHTTPClient.get behavior base_url
        (endpoint ++ "/" ++ resource_id)).2 = .error e →
      (BaseGmailResource.get_by_id behavior base_url endpoint
        resource_id).2 =
        .error (.resourceError
          ("Failed to get " ++ endpoint ++ "/" ++ resource_id ++ ": "
            ++ e.msg))) ∧
    (∀ (behavior : ClientBehavior) (base_url endpoint : String)
        (data : Json) (e : GmailError),
      (GmailHTTPClient.post behavior base_url endpoint data).2 = .error e →
      (BaseGmailResource.create behavior base_url endpoint data).2 =
        .error (.resourceError
          ("Failed to create " ++ endpoint ++ ": " ++ e.msg))) ∧
    (∀ (behavior : ClientBehavior) (base_url endpoint resource_id : String)
        (data : Json) (e : GmailError),
      (GmailHTTPClient.put behavior base_url
        (endpoint ++ "/" ++ resource_id) data).2 = .error e →
      (BaseGmailResource.update behavior base_url endpoint resource_id
        data).2 =
        .error (.resourceError
          ("Failed to update " ++ endpoint ++ "/" ++ resource_id ++ ": "
            ++ e.msg))) ∧
    (∀ (behavior : ClientBehavior) (base_url : String)
        (config : GmailConfig) (endpoint resource_id : String)
        (e : GmailError),
      (GmailHTTPClient.delete behavior base_url
        (endpoint ++ "/" ++ resource_id ++ "/" ++ config.TRASH_SUFFIX)).2 =
        .error e →
      (BaseGmailResource.delete behavior base_url config endpoint
        resource_id).2 =
        .error (.resourceError
          ("Failed to delete " ++ endpoint ++ "/" ++ resource_id ++ ": "
            ++ e.msg))) ∧
    (∀ (behavior : ClientBehavior) (base_url : String)
        (config : GmailConfig) (endpoint resource_id : String)
        (e : GmailError),
      (GmailHTTPClient.post behavior base_url
        (endpoint ++ "/" ++ resource_id ++ "/" ++ config.UNTRASH_SUFFIX)
        (Json.obj [])).2 = .error e →
      (BaseGmailResource.undelete behavior base_url config endpoint
        resource_id).2 =
        .error (.resourceError
          ("Failed to undelete " ++ endpoint ++ "/" ++ resource_id ++ ": "
            ++ e.msg))) ∧
    (∀ m : String, (GmailError.resourceError m).isAPIError = false ∧
      (GmailError.resourceError m).isRequestError = false) := by
  refine ⟨?_, ?_, ?_, ?_, ?_, ?_, fun m => ⟨rfl, rfl⟩⟩
  · intro behavior base_url endpoint list_key e h
    cases hcall : GmailHTTPClient.get behavior base_url endpoint with
    | mk tr res =>
        rw [hcall] at h
        simp only at h
        simp [BaseGmailResource.get_all, hcall, h]
  · intro behavior base_url endpoint resource_id e h
    cases hcall : GmailHTTPClient.get behavior base_url
      (endpoint ++ "/" ++ resource_id) with
    | mk tr res =>
        rw [hcall] at h
        simp only at h
        simp [BaseGmailResource.get_by_id, hcall, h]
  · intro behavior base_url endpoint data e h
    cases hcall : GmailHTTPClient.post behavior base_url endpoint data with
    | mk tr res =>
        rw [hcall] at h
        simp only at h
        simp [BaseGmailResource.create, hcall, h]
  · intro behavior base_url endpoint resource_id data e h
    cases hcall : GmailHTTPClient.put behavior base_url
      (endpoint ++ "/" ++ resource_id) data with
    | mk tr res =>
        rw [hcall] at h
        simp only at h
        simp [BaseGmailResource.update, hcall, h]
  · intro behavior base_url config endpoint resource_id e h
    cases hcall : GmailHTTPClient.delete behavior base_url
      (endpoint ++ "/" ++ resource_id ++ "/" ++ config.TRASH_SUFFIX) with
    | mk tr res =>
        rw [hcall] at h
        simp only at h
        simp [BaseGmailResource.delete, hcall, h]
  · intro behavior base_url config endpoint resource_id e h
    cases hcall : GmailHTTPClient.post behavior base_url
      (endpoint ++ "/" ++ resource_id ++ "/" ++ config.UNTRASH_SUFFIX)
      (Json.obj []) with
    | mk tr res =>
        rw [hcall] at h
        simp only at h
        simp [BaseGmailResource.undelete, hcall, h]

/-- Witness for C4: a stubbed transport failure surfaces from each of the
six handler operations as `GmailResourceError`. -/
theorem claim_C4_witness :
    (BaseGmailResource.get_all (fun _ _ => HttpOutcome.transportError "down")
      "b" "messages" "messages").2 =
      .error (.resourceError
        ("Failed to get " ++ "messages" ++ ": " ++
          (GmailError.requestError
            ("Request error for " ++ ("b" ++ "/" ++ "messages") ++ ": "
              ++ "down")).msg)) ∧
    (BaseGmailResource.delete (fun _ _ => HttpOutcome.transportError "down")
      "b" defaultConfig "messages" "m1").2 =
      .error (.resourceError
        ("Failed to delete " ++ "messages" ++ "/" ++ "m1" ++ ": " ++
          (GmailError.requestError
            ("Request error for " ++
              ("b" ++ "/" ++
                ("messages" ++ "/" ++ "m1" ++ "/" ++
                  defaultConfig.TRASH_SUFFIX)) ++ ": " ++ "down")).msg)) := by
  constructor
  · exact claim_C4_handlers_wrap_as_resource_error.1
      (fun _ _ => HttpOutcome.transportError "down") "b" "messages"
      "messages"
      (.requestError
        ("Request error for " ++ ("b" ++ "/" ++ "messages") ++ ": "
          ++ "down")) rfl
  · exact claim_C4_handlers_wrap_as_resource_error.2.2.2.2.1
      (fun _ _ => HttpOutcome.transportError "down") "b" defaultConfig
      "messages" "m1"
      (.requestError
        ("Request error for " ++
          ("b" ++ "/" ++
            ("messages" ++ "/" ++ "m1" ++ "/" ++
              defaultConfig.TRASH_SUFFIX)) ++ ": " ++ "down")) rfl

/-- C7: For every resource endpoint and id, `delete(id)` issues its
request (a DELETE) to the path `<endpoint>/<id>/trash` and `undelete(id)`
issues its request (a POST with an empty JSON object) to the path
`<endpoint>/<id>/untrash` — exact path construction, under the
configuration instance the facade builds. -/
theorem claim_C7_trash_untrash_paths (behavior : ClientBehavior)
    (base_url endpoint resource_id : String) :
    (BaseGmailResource.delete behavior base_url defaultConfig endpoint
      resource_id).1 =
      [⟨"DELETE",
        base_url ++ "/" ++ (endpoint ++ "/" ++ resource_id ++ "/trash"),
        Option.none⟩] ∧
    (BaseGmailResource.undelete behavior base_url defaultConfig endpoint
      resource_id).1 =
      [⟨"POST",
        base_url ++ "/" ++ (endpoint ++ "/" ++ resource_id ++ "/untrash"),
        Option.some (Json.obj [])⟩] := by
  have htrash :
      endpoint ++ "/" ++ resource_id ++ "/" ++ defaultConfig.TRASH_SUFFIX =
        endpoint ++ "/" ++ resource_id ++ "/trash" :=
    String.append_assoc (endpoint ++ "/" ++ resource_id) "/" "trash"
  have huntrash :
      endpoint ++ "/" ++ resource_id ++ "/" ++
          defaultConfig.UNTRASH_SUFFIX =
        endpoint ++ "/" ++ resource_id ++ "/untrash" :=
    String.append_assoc (endpoint ++ "/" ++ resource_id) "/" "untrash"
  constructor
  · cases hout : behavior "DELETE"
      (base_url ++ "/" ++
        (endpoint ++ "/" ++ resource_id ++ "/" ++
          defaultConfig.TRASH_SUFFIX)) <;>
      simp [BaseGmailResource.delete, GmailHTTPClient.delete,
        GmailHTTPClient.request, GmailHTTPClient.perform, hout, htrash]
  · cases hout : behavior "POST"
      (base_url ++ "/" ++
        (endpoint ++ "/" ++ resource_id ++ "/" ++
          defaultConfig.UNTRASH_SUFFIX)) <;>
      simp [BaseGmailResource.undelete, GmailHTTPClient.post,
        GmailHTTPClient.request, GmailHTTPClient.perform, hout, huntrash]

/-- C2: For every resource type in `{messages, drafts, threads}`, when the
HTTP GET succeeds (2xx) and returns a JSON object that does not contain
the resource's list key, `get_all` returns the empty list and does not
raise any error. -/
theorem claim_C2_missing_list_key_empty (kind : ResourceKind)
    (behavior : ClientBehavior) (config : GmailConfig) (status : Nat)
    (text : String) (fields : List (String × Json))
    (hresp : behavior "GET"
        (config.BASE_URL ++ "/" ++ kind.endpoint config) =
      .response status text (Option.some (Json.obj fields)))
    (h2xx : is2xx status = true)
    (hkey : fields.lookup kind.list_key = Option.none) :
    (resource_get_all behavior config kind).2 = .ok (Json.arr []) := by
  simp [resource_get_all, BaseGmailResource.get_all, GmailHTTPClient.get,
    GmailHTTPClient.request, GmailHTTPClient.perform, hresp, h2xx,
    Json.get, hkey]

/-- Witness for C2: a 200 response `{"resultSizeEstimate": 0}` with no
`messages` key makes the messages handler's `get_all` return `[]`. -/
theorem claim_C2_witness :
    is2xx 200 = true ∧
    ([("resultSizeEstimate", Json.num 0)].lookup
      (ResourceKind.messages.list_key) = Option.none) ∧
    (resource_get_all
      (fun _ _ => HttpOutcome.response 200 "{}"
        (Option.some (Json.obj [("resultSizeEstimate", Json.num 0)])))
      defaultConfig ResourceKind.messages).2 = .ok (Json.arr []) :=
  ⟨rfl, rfl,
    claim_C2_missing_list_key_empty ResourceKind.messages
      (fun _ _ => HttpOutcome.response 200 "{}"
        (Option.some (Json.obj [("resultSizeEstimate", Json.num 0)])))
      defaultConfig 200 "{}" [("resultSizeEstimate", Json.num 0)]
      rfl rfl rfl⟩

/-- C9: If the in-memory cached credential exists and is valid,
`get_credentials()` returns it and performs zero operations on persisted
token storage (no read of the token file and no write to it). -/
theorem claim_C9_cached_valid_no_storage (c : PyCredentials) (env : AuthEnv)
    (h : c.valid = true) :
    GmailAuthenticator.get_credentials (Option.some c) env =
      ([], .ok (c, Option.some c)) := by
  simp [GmailAuthenticator.get_credentials, h]

/-- Witness for C9 at a concrete valid cached credential. -/
theorem claim_C9_witness :
    GmailAuthenticator.get_credentials
      (Option.some ⟨true, false, true⟩)
      ⟨Option.some ⟨false, true, true⟩, .error "refresh should not run",
        .error "flow should not run"⟩ =
      ([], .ok (⟨true, false, true⟩, Option.some ⟨true, false, true⟩)) :=
  claim_C9_cached_valid_no_storage ⟨true, false, true⟩
    ⟨Option.some ⟨false, true, true⟩, .error "refresh should not run",
      .error "flow should not run"⟩ rfl

/-- The slow path of `get_credentials` only returns valid credentials,
assuming the refresh and authorization collaborators yield valid
credentials on success. -/
lemma get_credentials_uncached_valid (env : AuthEnv)
    (hrefresh : ∀ cr, env.refresh_result = .ok cr → cr.valid = true)
    (hflow : ∀ cr, env.flow_result = .ok cr → cr.valid = true)
    {ops : List StorageOp} {c : PyCredentials}
    {cache2 : Option PyCredentials}
    (h : GmailAuthenticator.get_credentials_uncached env =
      (ops, .ok (c, cache2))) :
    c.valid = true := by
  unfold GmailAuthenticator.get_credentials_uncached at h
  split at h
  · rename_i creds htf
    split at h
    · rename_i hv
      simp only [Prod.mk.injEq, Except.ok.injEq] at h
      obtain ⟨-, h2, -⟩ := h
      subst h2
      exact hv
    · split at h
      · split at h
        · rename_i refreshed heq
          simp only [Prod.mk.injEq, Except.ok.injEq] at h
          obtain ⟨-, h2, -⟩ := h
          subst h2
          exact hrefresh _ heq
        · simp at h
      · split at h
        · rename_i fresh heq
          simp only [Prod.mk.injEq, Except.ok.injEq] at h
          obtain ⟨-, h2, -⟩ := h
          subst h2
          exact hflow _ heq
        · simp at h
  · split at h
    · rename_i fresh heq
      simp only [Prod.mk.injEq, Except.ok.injEq] at h
      obtain ⟨-, h2, -⟩ := h
      subst h2
      exact hflow _ heq
    · simp at h

/-- C8: Whenever `get_credentials()` returns a credential (rather than
raising), that credential is valid at the moment it is returned — over all
paths: cached hit, load from storage, refresh, and fresh interactive
authorization (assuming the external refresh/authorization collaborators
yield valid credentials on success). -/
theorem claim_C8_returned_credential_valid (cached : Option PyCredentials)
    (env : AuthEnv)
    (hrefresh : ∀ cr, env.refresh_result = .ok cr → cr.valid = true)
    (hflow : ∀ cr, env.flow_result = .ok cr → cr.valid = true)
    (ops : List StorageOp) (c : PyCredentials)
    (cache2 : Option PyCredentials)
    (h : GmailAuthenticator.get_credentials cached env =
      (ops, .ok (c, cache2))) :
    c.valid = true := by
  unfold GmailAuthenticator.get_credentials at h
  split at h
  · rename_i c0
    split at h
    · rename_i hv
      simp only [Prod.mk.injEq, Except.ok.injEq] at h
      obtain ⟨-, h2, -⟩ := h
      subst h2
      exact hv
    · exact get_credentials_uncached_valid env hrefresh hflow h
  · exact get_credentials_uncached_valid env hrefresh hflow h

/-- Witness for C8 along the refresh path: an expired refreshable stored
credential, refreshed to a valid one, is returned valid. -/
theorem claim_C8_witness :
    GmailAuthenticator.get_credentials Option.none
      ⟨Option.some ⟨false, true, true⟩, .ok ⟨true, false, true⟩,
        .error "flow not needed"⟩ =
      ([StorageOp.readToken, StorageOp.writeToken],
        .ok (⟨true, false, true⟩, Option.some ⟨true, false, true⟩)) ∧
    (⟨true, false, true⟩ : PyCredentials).valid = true :=
  ⟨rfl,
    claim_C8_returned_credential_valid Option.none
      ⟨Option.some ⟨false, true, true⟩, .ok ⟨true, false, true⟩,
        .error "flow not needed"⟩
      (fun cr hcr => by
        simp only [Except.ok.injEq] at hcr
        subst hcr
        rfl)
      (fun cr hcr => by simp at hcr)
      [StorageOp.readToken, StorageOp.writeToken] ⟨true, false, true⟩
      (Option.some ⟨true, false, true⟩) rfl⟩

/-- C6: For every list response containing N stubs, `get_all` with
`details=true` creates exactly N detail tasks — one per stub id, in list
order — and (when the detail fetches succeed) returns a list of N results
whose position i corresponds to the i-th stub id of the list response. -/
theorem claim_C6_details_fanout (behavior : ClientBehavior)
    (base_url endpoint list_key : String) (f : Option Json → Json)
    (status : Nat) (text : String) (fields : List (String × Json))
    (stubs : List Json)
    (hresp : behavior "GET" (base_url ++ "/" ++ endpoint) =
      .response status text (Option.some (Json.obj fields)))
    (h2xx : is2xx status = true)
    (hkey : fields.lookup list_key = Option.some (Json.arr stubs)) :
    (BaseGmailResource.get_all_with_details behavior base_url endpoint
      list_key (fun i => .ok (f i))).2.1 =
      stubs.map (fun s => s.get "id") ∧
    (BaseGmailResource.get_all_with_details behavior base_url endpoint
      list_key (fun i => .ok (f i))).2.2 =
      .ok ((stubs.map (fun s => s.get "id")).map f) := by
  have hlist : BaseGmailResource.get_all behavior base_url endpoint
      list_key =
      ((BaseGmailResource.get_all behavior base_url endpoint list_key).1,
        .ok (Json.arr stubs)) := by
    rw [Prod.ext_iff]
    refine ⟨rfl, ?_⟩
    simp [BaseGmailResource.get_all, GmailHTTPClient.get,
      GmailHTTPClient.request, GmailHTTPClient.perform, hresp, h2xx,
      Json.get, hkey]
  rw [BaseGmailResource.get_all_with_details, hlist]
  by_cases hempty : stubs.isEmpty = true
  · rw [List.isEmpty_iff] at hempty
    subst hempty
    simp [Json.items]
  · rw [Bool.not_eq_true] at hempty
    simp only [Json.items, hempty, Bool.false_eq_true, if_false]
    refine ⟨by simp, ?_⟩
    exact gatherTasks_ok f (stubs.map fun s => s.get "id")

/-- Witness for C6: two stubs produce two detail-task arguments and two
positionally aligned results. -/
theorem claim_C6_witness :
    (BaseGmailResource.get_all_with_details
      (fun _ _ => HttpOutcome.response 200 "body"
        (Option.some (Json.obj [("messages",
          Json.arr [Json.obj [("id", Json.str "a")],
            Json.obj [("id", Json.str "b")]])])))
      "base" "messages" "messages"
      (fun i => .ok (Json.arr i.toList))).2.1 =
      [Option.some (Json.str "a"), Option.some (Json.str "b")] ∧
    (BaseGmailResource.get_all_with_details
      (fun _ _ => HttpOutcome.response 200 "body"
        (Option.some (Json.obj [("messages",
          Json.arr [Json.obj [("id", Json.str "a")],
            Json.obj [("id", Json.str "b")]])])))
      "base" "messages" "messages"
      (fun i => .ok (Json.arr i.toList))).2.2 =
      .ok [Json.arr [Json.str "a"], Json.arr [Json.str "b"]] :=
  claim_C6_details_fanout
    (fun _ _ => HttpOutcome.response 200 "body"
      (Option.some (Json.obj [("messages",
        Json.arr [Json.obj [("id", Json.str "a")],
          Json.obj [("id", Json.str "b")]])])))
    "base" "messages" "messages" (fun i => Json.arr i.toList) 200 "body"
    [("messages",
      Json.arr [Json.obj [("id", Json.str "a")],
        Json.obj [("id", Json.str "b")]])]
    [Json.obj [("id", Json.str "a")], Json.obj [("id", Json.str "b")]]
    rfl rfl rfl

/-- C10: `create_message` decides presence of optional arguments by
truthiness, not by `None`-ness: `message_html` given as the empty string
produces a one-part (plain text only) MIME document identical in
structure to omitting it, and `cc` given as the empty string or the empty
sequence adds no `Cc` header at all (identical to omitting `cc`). -/
theorem claim_C10_truthiness (sender to_ subject message_text : Line)
    (message_html : Option Line) (cc : PyCc) :
    GmailMessages.create_message_mime sender to_ subject message_text
        (Option.some []) cc =
      GmailMessages.create_message_mime sender to_ subject message_text
        Option.none cc ∧
    (GmailMessages.create_message_mime sender to_ subject message_text
        (Option.some []) cc).parts = [⟨toL "plain", message_text⟩] ∧
    GmailMessages.create_message_mime sender to_ subject message_text
        message_html (PyCc.ofStr []) =
      GmailMessages.create_message_mime sender to_ subject message_text
        message_html PyCc.omitted ∧
    GmailMessages.create_message_mime sender to_ subject message_text
        message_html (PyCc.ofList []) =
      GmailMessages.create_message_mime sender to_ subject message_text
        message_html PyCc.omitted := by
  refine ⟨?_, ?_, ?_, ?_⟩ <;>
    simp [GmailMessages.create_message_mime, htmlTruthy, PyCc.truthy]

/-! ## Lemma layer: MIME parse of the generated document -/

lemma dropPfx_append : ∀ p l : Line, dropPfx p (p ++ l) = Option.some l
  | [], _ => rfl
  | c :: cs, l => by
      simp only [List.cons_append, dropPfx, if_pos rfl]
      exact dropPfx_append cs l

lemma boundaryOfHeader_ctHeaderLine (b : Line) :
    boundaryOfHeader (ctHeaderLine b) = Option.some b := by
  have h1 : ctHeaderLine b = ctMarker ++ (b ++ ['"']) := by
    simp [ctHeaderLine, ctMarker, List.append_assoc]
  simp only [boundaryOfHeader, h1, dropPfx_append]
  rw [List.getLast?_concat, if_pos rfl, List.dropLast_concat]

/-- The parser finds the boundary in the top header block (its first line
is the `Content-Type` header). -/
lemma extractBoundary_topHeaderLines (m : MultipartMessage) (b : Line) :
    extractBoundary (topHeaderLines m b) = Option.some b := by
  simp [extractBoundary, topHeaderLines, List.findSome?_cons,
    boundaryOfHeader_ctHeaderLine]

lemma notBlank_append_left {l : Line} (r : Line) (h : notBlank l = true) :
    notBlank (l ++ r) = true := by
  cases l with
  | nil => simp [notBlank] at h
  | cons c cs => simp [notBlank]

/-- Rendered header lines are never blank. -/
lemma notBlank_headerLine (nv : Line × Line) :
    notBlank (headerLine nv) = true := by
  obtain ⟨n, v⟩ := nv
  cases n <;> simp [headerLine, notBlank]

/-- Every line of the top header block is non-blank. -/
lemma topHeaderLines_notBlank (m : MultipartMessage) (b : Line) :
    ∀ l ∈ topHeaderLines m b, notBlank l = true := by
  intro l hl
  simp only [topHeaderLines, List.mem_cons, List.mem_map] at hl
  rcases hl with h | h | ⟨nv, -, h⟩
  · subst h
    exact notBlank_append_left _ (notBlank_append_left _ (by decide))
  · subst h
    decide
  · subst h
    exact notBlank_headerLine nv

lemma ne_of_head? {l m : Line} {c d : Char} (hl : l.head? = Option.some c)
    (hm : m.head? = Option.some d) (h : c ≠ d) : l ≠ m := by
  intro he
  subst he
  rw [hl] at hm
  exact h (Option.some.inj hm)

lemma isDelim_eq_false {openD closeD l : Line} (h1 : l ≠ openD)
    (h2 : l ≠ closeD) : isDelim openD closeD l = false := by
  simp [isDelim, h1, h2]

/-- The two delimiter lines both start with `-`; a line starting with any
other character, or the blank line, is not a delimiter. -/
lemma isDelim_boundary_eq_false {b l : Line} {c : Char}
    (hl : l.head? = Option.some c) (hc : c ≠ '-') :
    isDelim ('-' :: '-' :: b) (('-' :: '-' :: b) ++ ['-', '-']) l = false :=
  isDelim_eq_false (ne_of_head? hl rfl hc) (ne_of_head? hl rfl hc)

lemma isDelim_blank_eq_false (b : Line) :
    isDelim ('-' :: '-' :: b) (('-' :: '-' :: b) ++ ['-', '-']) [] = false :=
  isDelim_eq_false (by simp) (by simp)

lemma openD_ne_closeD (openD : Line) :
    openD ≠ openD ++ ['-', '-'] := by
  intro h
  have := congrArg List.length h
  simp at this

/-- `splitParts` recovers the chunks from the flattened body: each chunk
is preceded by the opening delimiter line, and the closing delimiter line
ends the scan. -/
lemma splitParts_flatMap (openD closeD : Line) (hne : openD ≠ closeD)
    (hclose : isDelim openD closeD closeD = true) :
    ∀ chunks : List (List Line),
      (∀ ch ∈ chunks, ∀ l ∈ ch, isDelim openD closeD l = false) →
      splitParts openD closeD
        (chunks.flatMap (fun ch => openD :: ch) ++ [closeD, []]) = chunks
  | [], _ => by
      simp [splitParts]
  | ch :: chs, hnd => by
      have hch : ∀ l ∈ ch, (fun x => !isDelim openD closeD x) l = true := by
        intro l hl
        simp [hnd ch (by simp) l hl]
      have hrest : ∀ rest : List Line,
          rest = chs.flatMap (fun c0 => openD :: c0) ++ [closeD, []] →
          rest.takeWhile (fun x => !isDelim openD closeD x) = [] ∧
          rest.dropWhile (fun x => !isDelim openD closeD x) = rest := by
        intro rest hr
        cases chs with
        | nil =>
            subst hr
            constructor
            · simp [List.takeWhile_cons, hclose]
            · simp [List.dropWhile_cons, hclose]
        | cons c0 cs0 =>
            subst hr
            have hop : isDelim openD closeD openD = true := by
              simp [isDelim]
            constructor
            · simp [List.takeWhile_cons, hop]
            · simp [List.dropWhile_cons, hop]
      have ih := splitParts_flatMap openD closeD hne hclose chs
        (fun c0 hc0 l hl => hnd c0 (by simp [hc0]) l hl)
      simp only [List.flatMap_cons, List.cons_append, List.append_assoc]
      rw [splitParts]
      rw [if_neg hne, if_pos rfl]
      rw [takeWhile_append_all _ ch _ hch, dropWhile_append_all _ ch _ hch]
      rw [(hrest _ rfl).1, (hrest _ rfl).2]
      rw [List.append_nil]
      exact congrArg (ch :: ·) ih

lemma partHeaderLines_notBlank (st : Line) :
    ∀ l ∈ partHeaderLines st, notBlank l = true := by
  intro l hl
  simp only [partHeaderLines, List.mem_cons, List.not_mem_nil, or_false]
    at hl
  rcases hl with h | h | h <;> subst h
  · exact notBlank_append_left _ (notBlank_append_left _ (by decide))
  · decide
  · decide

/-- Parsing one generated part block recovers its headers and payload. -/
lemma parsePart_partLines (p : MimeText) :
    parsePart (partLines p) = ⟨partHeaderLines p.subtype, p.payload⟩ := by
  unfold parsePart partLines
  rw [takeWhile_append_all _ _ _ (partHeaderLines_notBlank p.subtype),
    dropWhile_append_all _ _ _ (partHeaderLines_notBlank p.subtype)]
  simp [List.takeWhile_cons, List.dropWhile_cons, notBlank,
    joinNl_splitOnNl]

/-- No line of a generated part block is a delimiter line, given that the
boundary occurs on no payload line. -/
lemma partLines_isDelim_false (b : Line) (p : MimeText)
    (hfresh : ∀ l ∈ splitOnNl p.payload,
      isDelim ('-' :: '-' :: b) (('-' :: '-' :: b) ++ ['-', '-']) l =
        false) :
    ∀ l ∈ partLines p,
      isDelim ('-' :: '-' :: b) (('-' :: '-' :: b) ++ ['-', '-']) l =
        false := by
  intro l hl
  simp only [partLines, partHeaderLines, List.mem_append, List.mem_cons,
    List.not_mem_nil, or_false] at hl
  rcases hl with (h | h | h) | h | h
  · subst h
    exact isDelim_boundary_eq_false rfl (by decide)
  · subst h
    exact isDelim_boundary_eq_false rfl (by decide)
  · subst h
    exact isDelim_boundary_eq_false rfl (by decide)
  · subst h
    exact isDelim_blank_eq_false b
  · exact hfresh l h

/-- Parsing the generated document recovers its header block and, for each
attached part, its part headers and payload — provided no generated line
contains a newline and the boundary occurs on no payload line (the
generator's `_make_boundary` guarantees the latter by construction). -/
theorem message_from_string_messageLines (m : MultipartMessage) (b : Line)
    (hnl : ∀ l ∈ messageLines m b, '\n' ∉ l)
    (hfresh : ∀ p ∈ m.parts, ∀ l ∈ splitOnNl p.payload,
      isDelim ('-' :: '-' :: b) (('-' :: '-' :: b) ++ ['-', '-']) l =
        false) :
    message_from_string (joinNl (messageLines m b)) =
      ⟨topHeaderLines m b,
        m.parts.map (fun p => ⟨partHeaderLines p.subtype, p.payload⟩)⟩ := by
  have hne : messageLines m b ≠ [] := by
    intro h
    have hlen := congrArg List.length h
    simp [messageLines, topHeaderLines] at hlen
  have hlines : splitOnNl (joinNl (messageLines m b)) = messageLines m b :=
    splitOnNl_joinNl _ hne hnl
  have hshape : messageLines m b =
      topHeaderLines m b ++
        ([] ::
          (m.parts.flatMap (fun p => ('-' :: '-' :: b) :: partLines p) ++
            [('-' :: '-' :: b) ++ ['-', '-'], []])) := by
    simp [messageLines, List.append_assoc]
  unfold message_from_string
  dsimp only
  rw [hlines, hshape]
  rw [takeWhile_append_all _ _ _ (topHeaderLines_notBlank m b),
    dropWhile_append_all _ _ _ (topHeaderLines_notBlank m b)]
  have hblank : notBlank ([] : Line) = false := by decide
  simp only [List.takeWhile_cons, List.dropWhile_cons, hblank,
    Bool.false_eq_true, if_false, List.append_nil, List.drop_succ_cons,
    List.drop_zero]
  rw [extractBoundary_topHeaderLines]
  dsimp only
  have hflat : m.parts.flatMap (fun p => ('-' :: '-' :: b) :: partLines p) =
      (m.parts.map partLines).flatMap
        (fun ch => ('-' :: '-' :: b) :: ch) := by
    rw [List.flatMap_map]
  rw [hflat,
    splitParts_flatMap ('-' :: '-' :: b) (('-' :: '-' :: b) ++ ['-', '-'])
      (openD_ne_closeD _) (by simp [isDelim]) (m.parts.map partLines)
      (by
        intro ch hch l hl
        rw [List.mem_map] at hch
        obtain ⟨p, hp, rfl⟩ := hch
        exact partLines_isDelim_false b p (hfresh p hp) l hl)]
  rw [List.map_map]
  refine congrArg (fun ps => ParsedMessage.mk (topHeaderLines m b) ps) ?_
  exact List.map_congr_left fun p _ => parsePart_partLines p

/-! ## Lemma layer: the generated document is single-line ASCII -/

/-- Which lines the generated document consists of. -/
lemma mem_messageLines {m : MultipartMessage} {b : Line} {l : Line} :
    l ∈ messageLines m b ↔
      l = ctHeaderLine b ∨ l = toL "MIME-Version: 1.0" ∨
      (∃ nv ∈ m.headers, l = headerLine nv) ∨ l = [] ∨
      (∃ p ∈ m.parts, l = ('-' :: '-' :: b) ∨ l ∈ partLines p) ∨
      l = ('-' :: '-' :: b) ++ ['-', '-'] := by
  simp only [messageLines, topHeaderLines, List.mem_append, List.mem_cons,
    List.mem_map, List.mem_flatMap, List.not_mem_nil, or_false]
  constructor
  · intro h
    aesop
  · intro h
    aesop

lemma asciiL_append {l r : Line} (hl : asciiL l) (hr : asciiL r) :
    asciiL (l ++ r) := by
  intro c hc
  rcases List.mem_append.mp hc with h | h
  · exact hl c h
  · exact hr c h

lemma asciiL_commaJoin :
    ∀ ls : List Line, (∀ x ∈ ls, asciiL x) → asciiL (commaJoin ls)
  | [], _ => by intro c hc; simp [commaJoin] at hc
  | [s], h => by simpa [commaJoin] using h s (by simp)
  | s :: s2 :: rest, h => by
      simp only [commaJoin]
      exact asciiL_append
        (asciiL_append (h s (by simp)) (by decide))
        (asciiL_commaJoin (s2 :: rest)
          (fun x hx => h x (by simp [List.mem_cons] at hx ⊢; tauto)))

lemma nl_not_mem_commaJoin :
    ∀ ls : List Line, (∀ x ∈ ls, '\n' ∉ x) → '\n' ∉ commaJoin ls
  | [], _ => by simp [commaJoin]
  | [s], h => by simpa [commaJoin] using h s (by simp)
  | s :: s2 :: rest, h => by
      have h1 := h s (by simp)
      have h2 := nl_not_mem_commaJoin (s2 :: rest)
        (fun x hx => h x (by simp [List.mem_cons] at hx ⊢; tauto))
      simp only [commaJoin]
      intro hmem
      rcases List.mem_append.mp hmem with hm | hm
      · rcases List.mem_append.mp hm with hm2 | hm2
        · exact h1 hm2
        · exact absurd hm2 (by decide)
      · exact h2 hm

/-- No line of the generated document contains a newline, provided the
header values and the boundary contain none (payload text may: it is
split at newlines by the generator model). -/
lemma messageLines_no_nl (m : MultipartMessage) (b : Line)
    (hh : ∀ nv ∈ m.headers, '\n' ∉ nv.1 ∧ '\n' ∉ nv.2)
    (hb : '\n' ∉ b)
    (hsub : ∀ p ∈ m.parts, '\n' ∉ p.subtype) :
    ∀ l ∈ messageLines m b, '\n' ∉ l := by
  intro l hl
  rcases mem_messageLines.mp hl with h | h | ⟨nv, hnv, h⟩ | h |
    ⟨p, hp, h | h⟩ | h
  · subst h
    simp only [ctHeaderLine, List.mem_append, List.mem_cons,
      List.not_mem_nil]
    push_neg
    exact ⟨⟨by decide, hb⟩, by decide, by simp⟩
  · subst h
    decide
  · subst h
    simp only [headerLine, List.mem_append, List.mem_cons,
      List.not_mem_nil]
    push_neg
    exact ⟨⟨(hh nv hnv).1, by decide, by decide, by simp⟩, (hh nv hnv).2⟩
  · subst h
    simp
  · subst h
    simp only [List.mem_cons]
    push_neg
    exact ⟨by decide, by decide, hb⟩
  · simp only [partLines, partHeaderLines, List.mem_append, List.mem_cons,
      List.not_mem_nil, or_false] at h
    rcases h with (h | h | h) | h | h
    · subst h
      simp only [List.mem_append]
      push_neg
      exact ⟨⟨by decide, hsub p hp⟩, by decide⟩
    · subst h
      decide
    · subst h
      decide
    · subst h
      simp
    · exact nl_not_mem_splitOnNl p.payload l h
  · subst h
    simp only [List.mem_append, List.mem_cons, List.not_mem_nil]
    push_neg
    exact ⟨⟨by decide, by decide, hb⟩, by decide, by decide, by simp⟩

/-- Every line of the generated document is ASCII, provided the header
values, the boundary, the part subtypes and the payloads are. -/
lemma messageLines_ascii (m : MultipartMessage) (b : Line)
    (hh : ∀ nv ∈ m.headers, asciiL nv.1 ∧ asciiL nv.2)
    (hb : asciiL b)
    (hp : ∀ p ∈ m.parts, asciiL p.subtype ∧ asciiL p.payload) :
    ∀ l ∈ messageLines m b, asciiL l := by
  intro l hl
  rcases mem_messageLines.mp hl with h | h | ⟨nv, hnv, h⟩ | h |
    ⟨p, hpm, h | h⟩ | h
  · subst h
    exact asciiL_append (asciiL_append (by decide) hb) (by decide)
  · subst h
    decide
  · subst h
    exact asciiL_append (asciiL_append (hh nv hnv).1 (by decide))
      (hh nv hnv).2
  · subst h
    intro c hc
    simp at hc
  · subst h
    intro c hc
    rcases List.mem_cons.mp hc with h | h
    · subst h; decide
    · rcases List.mem_cons.mp h with h | h
      · subst h; decide
      · exact hb c h
  · simp only [partLines, partHeaderLines, List.mem_append, List.mem_cons,
      List.not_mem_nil, or_false] at h
    rcases h with (h | h | h) | h | h
    · subst h
      exact asciiL_append (asciiL_append (by decide) (hp p hpm).1)
        (by decide)
    · subst h
      decide
    · subst h
      decide
    · subst h
      intro c hc
      simp at hc
    · exact fun c hc =>
        (hp p hpm).2 c (mem_of_mem_splitOnNl p.payload l h c hc)
  · subst h
    intro c hc
    rcases List.mem_append.mp hc with h | h
    · rcases List.mem_cons.mp h with h | h
      · subst h; decide
      · rcases List.mem_cons.mp h with h | h
        · subst h; decide
        · exact hb c h
    · rcases List.mem_cons.mp h with h | h
      · subst h; decide
      · rcases List.mem_cons.mp h with h | h
        · subst h; decide
        · simp at h

/-- All bytes of the generated document are ASCII bytes. -/
lemma joinNl_messageLines_ascii (m : MultipartMessage) (b : Line)
    (hh : ∀ nv ∈ m.headers, asciiL nv.1 ∧ asciiL nv.2)
    (hb : asciiL b)
    (hp : ∀ p ∈ m.parts, asciiL p.subtype ∧ asciiL p.payload) :
    ∀ c ∈ joinNl (messageLines m b), c.toNat < 128 := by
  intro c hc
  rcases mem_joinNl (messageLines m b) c hc with h | ⟨l, hl, hcl⟩
  · subst h
    decide
  · exact messageLines_ascii m b hh hb hp l hl c hcl

/-- Decoding the ASCII bytes of a character list gives it back. -/
lemma map_ofNat_map_toNat (s : Line) :
    (s.map Char.toNat).map Char.ofNat = s := by
  rw [List.map_map]
  have h : Char.ofNat ∘ Char.toNat = id := funext Char.ofNat_toNat
  rw [h, List.map_id]

/-- C1: For every sender, recipient, subject and plain-text body
`message_text` (ASCII; likewise the optional html body, cc list and the
boundary the generator chooses), `parse_message` applied to the `raw`
field of `create_message(sender, to, subject, message_text, ...)` yields a
structured MIME message whose plain-text part equals the original
`message_text` — the round-trip of the urlsafe-base64 encode/decode pair
composed with MIME build/parse.  The hypotheses on the boundary state what
CPython guarantees when it picks one: it is ASCII without newline or
quote, short enough that the `Content-Type` header is not folded, and its
delimiter lines occur in no payload; header values are single lines. -/
theorem claim_C1_create_parse_roundtrip
    (sender to_ subject message_text : Line) (message_html : Option Line)
    (cc : PyCc) (boundary : Line)
    (hS : asciiL sender) (hT : asciiL to_) (hSub : asciiL subject)
    (hTxt : asciiL message_text)
    (hH : ∀ s, message_html = Option.some s → asciiL s)
    (hCc : ∀ x ∈ cc.normalized, asciiL x)
    (hB : asciiL boundary)
    (hnlS : '\n' ∉ sender) (hnlT : '\n' ∉ to_) (hnlSub : '\n' ∉ subject)
    (hnlCc : ∀ x ∈ cc.normalized, '\n' ∉ x) (hnlB : '\n' ∉ boundary)
    (hq : '"' ∉ boundary) (hlen : boundary.length ≤ 31)
    (hfreshT : ∀ l ∈ splitOnNl message_text,
      isDelim ('-' :: '-' :: boundary)
        (('-' :: '-' :: boundary) ++ ['-', '-']) l = false)
    (hfreshH : ∀ s, message_html = Option.some s → ∀ l ∈ splitOnNl s,
      isDelim ('-' :: '-' :: boundary)
        (('-' :: '-' :: boundary) ++ ['-', '-']) l = false) :
    GmailMessages.parse_message
      (GmailMessages.create_message sender to_ subject message_text
        message_html cc boundary) =
      ⟨topHeaderLines
          (GmailMessages.create_message_mime sender to_ subject
            message_text message_html cc) boundary,
        (GmailMessages.create_message_mime sender to_ subject message_text
          message_html cc).parts.map
            (fun p => ⟨partHeaderLines p.subtype, p.payload⟩)⟩ ∧
    (GmailMessages.parse_message
      (GmailMessages.create_message sender to_ subject message_text
        message_html cc boundary)).parts.head? =
      Option.some ⟨partHeaderLines (toL "plain"), message_text⟩ := by
  have hh_nl : ∀ nv ∈ (GmailMessages.create_message_mime sender to_
      subject message_text message_html cc).headers,
      '\n' ∉ nv.1 ∧ '\n' ∉ nv.2 := by
    intro nv hnv
    cases hcc : cc.truthy with
    | true =>
        simp only [GmailMessages.create_message_mime, hcc, if_true,
          List.mem_append, List.mem_cons, List.not_mem_nil, or_false]
          at hnv
        rcases hnv with (h | h | h) | h <;> subst h
        · exact ⟨(by decide : '\n' ∉ toL "to"), hnlT⟩
        · exact ⟨(by decide : '\n' ∉ toL "from"), hnlS⟩
        · exact ⟨(by decide : '\n' ∉ toL "subject"), hnlSub⟩
        · exact ⟨(by decide : '\n' ∉ toL "Cc"),
            nl_not_mem_commaJoin cc.normalized hnlCc⟩
    | false =>
        simp only [GmailMessages.create_message_mime, hcc,
          Bool.false_eq_true, if_false, List.append_nil, List.mem_cons,
          List.not_mem_nil, or_false] at hnv
        rcases hnv with h | h | h <;> subst h
        · exact ⟨(by decide : '\n' ∉ toL "to"), hnlT⟩
        · exact ⟨(by decide : '\n' ∉ toL "from"), hnlS⟩
        · exact ⟨(by decide : '\n' ∉ toL "subject"), hnlSub⟩
  have hh_ascii : ∀ nv ∈ (GmailMessages.create_message_mime sender to_
      subject message_text message_html cc).headers,
      asciiL nv.1 ∧ asciiL nv.2 := by
    intro nv hnv
    cases hcc : cc.truthy with
    | true =>
        simp only [GmailMessages.create_message_mime, hcc, if_true,
          List.mem_append, List.mem_cons, List.not_mem_nil, or_false]
          at hnv
        rcases hnv with (h | h | h) | h <;> subst h
        · exact ⟨(by decide : asciiL (toL "to")), hT⟩
        · exact ⟨(by decide : asciiL (toL "from")), hS⟩
        · exact ⟨(by decide : asciiL (toL "subject")), hSub⟩
        · exact ⟨(by decide : asciiL (toL "Cc")),
            asciiL_commaJoin cc.normalized hCc⟩
    | false =>
        simp only [GmailMessages.create_message_mime, hcc,
          Bool.false_eq_true, if_false, List.append_nil, List.mem_cons,
          List.not_mem_nil, or_false] at hnv
        rcases hnv with h | h | h <;> subst h
        · exact ⟨(by decide : asciiL (toL "to")), hT⟩
        · exact ⟨(by decide : asciiL (toL "from")), hS⟩
        · exact ⟨(by decide : asciiL (toL "subject")), hSub⟩
  have hparts_cases : ∀ p ∈ (GmailMessages.create_message_mime sender to_
      subject message_text message_html cc).parts,
      p = ⟨toL "plain", message_text⟩ ∨
        ∃ s, message_html = Option.some s ∧ p = ⟨toL "html", s⟩ := by
    intro p hp
    cases hhtml : message_html with
    | none =>
        rw [hhtml] at hp
        simp only [GmailMessages.create_message_mime, htmlTruthy,
          Bool.false_eq_true, if_false, List.append_nil, List.mem_cons,
          List.not_mem_nil, or_false] at hp
        exact Or.inl hp
    | some s =>
        rw [hhtml] at hp
        cases hs : htmlTruthy (Option.some s) with
        | true =>
            simp only [GmailMessages.create_message_mime, hs, if_true,
              List.mem_append, List.mem_cons, List.not_mem_nil, or_false]
              at hp
            rcases hp with h | h
            · exact Or.inl h
            · exact Or.inr ⟨s, rfl, h⟩
        | false =>
            simp only [GmailMessages.create_message_mime, hs,
              Bool.false_eq_true, if_false, List.append_nil,
              List.mem_cons, List.not_mem_nil, or_false] at hp
            exact Or.inl hp
  have hp_sub : ∀ p ∈ (GmailMessages.create_message_mime sender to_
      subject message_text message_html cc).parts, '\n' ∉ p.subtype := by
    intro p hp
    rcases hparts_cases p hp with h | ⟨s, -, h⟩ <;> subst h
    · exact (by decide : '\n' ∉ toL "plain")
    · exact (by decide : '\n' ∉ toL "html")
  have hp_ascii : ∀ p ∈ (GmailMessages.create_message_mime sender to_
      subject message_text message_html cc).parts,
      asciiL p.subtype ∧ asciiL p.payload := by
    intro p hp
    rcases hparts_cases p hp with h | ⟨s, hs, h⟩
    · subst h
      exact ⟨(by decide : asciiL (toL "plain")), hTxt⟩
    · subst h
      exact ⟨(by decide : asciiL (toL "html")), hH s hs⟩
  have hp_fresh : ∀ p ∈ (GmailMessages.create_message_mime sender to_
      subject message_text message_html cc).parts,
      ∀ l ∈ splitOnNl p.payload,
        isDelim ('-' :: '-' :: boundary)
          (('-' :: '-' :: boundary) ++ ['-', '-']) l = false := by
    intro p hp
    rcases hparts_cases p hp with h | ⟨s, hs, h⟩
    · subst h; exact hfreshT
    · subst h; exact hfreshH s hs
  have hbytes : ∀ x ∈ (joinNl (messageLines
      (GmailMessages.create_message_mime sender to_ subject message_text
        message_html cc) boundary)).map Char.toNat, x < 256 := by
    intro x hx
    rw [List.mem_map] at hx
    obtain ⟨c, hc, rfl⟩ := hx
    have := joinNl_messageLines_ascii _ boundary hh_ascii hB hp_ascii c hc
    omega
  have hserial : GmailMessages.parse_message
      (GmailMessages.create_message sender to_ subject message_text
        message_html cc boundary) =
      message_from_string (joinNl (messageLines
        (GmailMessages.create_message_mime sender to_ subject message_text
          message_html cc) boundary)) := by
    unfold GmailMessages.parse_message GmailMessages.create_message
    rw [urlsafe_decode_encode _ hbytes, map_ofNat_map_toNat]
  have hmain := message_from_string_messageLines
    (GmailMessages.create_message_mime sender to_ subject message_text
      message_html cc) boundary
    (messageLines_no_nl _ boundary hh_nl hnlB hp_sub) hp_fresh
  refine ⟨hserial.trans hmain, ?_⟩
  rw [hserial, hmain]
  simp [GmailMessages.create_message_mime]

/-- Witness for C1 at a concrete message (multi-line body, html
alternative, one cc recipient, boundary `BB`): the parsed first part is
the text/plain part carrying exactly the original body. -/
theorem claim_C1_witness :
    (GmailMessages.parse_message
      (GmailMessages.create_message (toL "a@x.com") (toL "b@y.com")
        (toL "hi") (toL "hello\nworld") (Option.some (toL "<b>hi</b>"))
        (PyCc.ofList [toL "c@z.com"]) (toL "BB"))).parts.head? =
      Option.some ⟨partHeaderLines (toL "plain"), toL "hello\nworld"⟩ :=
  (claim_C1_create_parse_roundtrip (toL "a@x.com") (toL "b@y.com")
    (toL "hi") (toL "hello\nworld") (Option.some (toL "<b>hi</b>"))
    (PyCc.ofList [toL "c@z.com"]) (toL "BB")
    (by decide) (by decide) (by decide) (by decide)
    (by
      intro s hs
      rw [Option.some.injEq] at hs
      subst hs
      decide)
    (by decide) (by decide)
    (by decide) (by decide) (by decide) (by decide) (by decide)
    (by decide) (by decide)
    (by decide)
    (by
      intro s hs
      rw [Option.some.injEq] at hs
      subst hs
      decide)).2

end GmailWrapper
